import Mathlib

/-!
Shallow embedding of `assistant_bot.py`, a contact directory ("assistant bot"):
validated fields (`Name`, `Phone`, `Birthday`), contact records, the
insertion-ordered `AddressBook`, the birthday-window computation, the
pickle-based persistence pair `save_data`/`load_data`, and the `add_contact`
command handler.  Python's mutable objects are modelled by explicit state
passing; exceptions by `Option`/`Except`; `datetime.date` by a `PyDate`
structure with the proleptic-Gregorian ordinal arithmetic CPython uses.
The ambient clock `datetime.today()` is passed in as an explicit `today`
parameter.
-/

namespace AssistantBot

/- ### Dates: model of `datetime.date` -/

/-- Gregorian leap-year test, as in CPython `datetime._is_leap`. -/
def isLeap (y : Nat) : Prop := y % 4 = 0 ∧ (y % 100 ≠ 0 ∨ y % 400 = 0)

instance (y : Nat) : Decidable (isLeap y) := by
  unfold isLeap; infer_instance

/-- Length of a month, as in CPython `datetime._days_in_month`. -/
def daysInMonth (y m : Nat) : Nat :=
  if m = 2 then (if isLeap y then 29 else 28)
  else if m = 4 ∨ m = 6 ∨ m = 9 ∨ m = 11 then 30
  else 31

/-- Validity check performed by the `datetime.date` constructor:
`MINYEAR = 1 ≤ year ≤ MAXYEAR = 9999`, `1 ≤ month ≤ 12`,
`1 ≤ day ≤ days_in_month(year, month)`. -/
def dateValid (y m d : Nat) : Prop :=
  1 ≤ y ∧ y ≤ 9999 ∧ 1 ≤ m ∧ m ≤ 12 ∧ 1 ≤ d ∧ d ≤ daysInMonth y m

instance (y m d : Nat) : Decidable (dateValid y m d) := by
  unfold dateValid; infer_instance

/-- A calendar date as stored by `datetime.date` (year, month, day). -/
structure PyDate where
  year : Nat
  month : Nat
  day : Nat
deriving DecidableEq

def PyDate.valid (dt : PyDate) : Prop := dateValid dt.year dt.month dt.day

instance (dt : PyDate) : Decidable dt.valid := by
  unfold PyDate.valid; infer_instance

/-- Cumulative day count before each month in a non-leap year, the
`_DAYS_BEFORE_MONTH` table of CPython `datetime` (extended with the
13th entry `365`, the full year). -/
def monthTable : Nat → Nat
  | 1 => 0 | 2 => 31 | 3 => 59 | 4 => 90 | 5 => 120 | 6 => 151 | 7 => 181
  | 8 => 212 | 9 => 243 | 10 => 273 | 11 => 304 | 12 => 334 | 13 => 365
  | _ => 0

/-- CPython `datetime._days_before_month`. -/
def daysBeforeMonth (y m : Nat) : Nat :=
  monthTable m + (if 2 < m ∧ isLeap y then 1 else 0)

/-- CPython `datetime._days_before_year`. -/
def daysBeforeYear (y : Nat) : Nat :=
  365 * (y - 1) + (y - 1) / 4 - (y - 1) / 100 + (y - 1) / 400

/-- CPython `datetime._ymd2ord`: proleptic-Gregorian ordinal of a date. -/
def toOrdinal (dt : PyDate) : Nat :=
  daysBeforeYear dt.year + daysBeforeMonth dt.year dt.month + dt.day

/-- Day difference `(a - b).days` of two `datetime.date` values. -/
def dateDiff (a b : PyDate) : Int :=
  (toOrdinal a : Int) - (toOrdinal b : Int)

/-- Comparison `a < b` on `datetime.date` (lexicographic on (y, m, d),
which CPython implements by comparing the packed y/m/d bytes). -/
def dateLt (a b : PyDate) : Prop :=
  a.year < b.year ∨
    (a.year = b.year ∧
      (a.month < b.month ∨ (a.month = b.month ∧ a.day < b.day)))

instance (a b : PyDate) : Decidable (dateLt a b) := by
  unfold dateLt; infer_instance

/-- Model of `date.replace(year=y)`: keeps month and day, revalidates the
resulting date, and raises `ValueError` (here `none`) if it is not a real
date — e.g. Feb 29 moved to a non-leap year. -/
def PyDate.replaceYear (dt : PyDate) (y : Nat) : Option PyDate :=
  if dateValid y dt.month dt.day then some ⟨y, dt.month, dt.day⟩ else none

/- ### Field validators -/

/-- Model of Python `str.isdigit` on a single character, restricted to the
character repertoire used in this development: the ASCII digits plus the
Latin-1 superscript digits, which CPython documents as `isdigit`-true even
though they are not decimal digits.  (CPython additionally accepts further
Unicode digit characters; they are not modelled here.) -/
def pyIsDigitChar (c : Char) : Bool :=
  c.isDigit || c = '¹' || c = '²' || c = '³'

/-- Model of Python `str.isdigit`: false on the empty string, otherwise
every character must be a digit character. -/
def pyStrIsDigit (s : String) : Bool :=
  s.length != 0 && s.toList.all pyIsDigitChar

/-- Wrapper for a validated contact name (`class Name(Field)`). -/
structure Name where
  value : String
deriving DecidableEq

/-- The characters Python `str.strip()` removes, at ASCII: space, tab,
newline, carriage return, vertical tab, form feed.  (Python additionally
strips further Unicode whitespace, not modelled.) -/
def pyWhitespace (c : Char) : Bool :=
  c = ' ' || c = '\t' || c = '\n' || c = '\r' || c = '\x0b' || c = '\x0c'

/-- Model of Python `value.strip()` on the character list. -/
def pyStrip (l : List Char) : List Char :=
  ((l.dropWhile pyWhitespace).reverse.dropWhile pyWhitespace).reverse

/-- `Name.is_valid`: the string is non-empty after stripping surrounding
whitespace (`len(value.strip()) > 0`). -/
def Name.is_valid (value : String) : Bool :=
  (pyStrip value.toList).length != 0

/-- The `Name` constructor: stores the raw string if valid, raises
`ValueError` (here `none`) otherwise. -/
def Name.mk? (value : String) : Option Name :=
  if Name.is_valid value then some ⟨value⟩ else none

/-- Wrapper for a validated phone number (`class Phone(Field)`). -/
structure Phone where
  value : String
deriving DecidableEq

/-- `Phone.is_valid`: `value.isdigit() and len(value) == 10`. -/
def Phone.is_valid (value : String) : Bool :=
  pyStrIsDigit value && value.length == 10

/-- The `Phone` constructor: stores the raw string if valid, raises
`ValueError` (here `none`) otherwise. -/
def Phone.mk? (value : String) : Option Phone :=
  if Phone.is_valid value then some ⟨value⟩ else none

/-- `Field.__str__` as inherited by `Phone`: `str(self.value)`. -/
def Phone.str (p : Phone) : String := p.value

/- ### Birthday parsing: model of `datetime.strptime(value, "%d.%m.%Y")` -/

/-- Split a character list at every `'.'` (the literal separators of the
`"%d.%m.%Y"` pattern). -/
def splitDots : List Char → List (List Char)
  | [] => [[]]
  | c :: rest =>
    if c = '.' then [] :: splitDots rest
    else
      match splitDots rest with
      | [] => [[c]]
      | g :: gs => (c :: g) :: gs

/-- Rejoin the groups produced by `splitDots` with `'.'` separators. -/
def joinDots : List (List Char) → List Char
  | [] => []
  | g :: gs =>
    match gs with
    | [] => g
    | _ :: _ => g ++ '.' :: joinDots gs

/-- All characters are ASCII decimal digits (the `\d` of the strptime
regular expression, modelled at ASCII). -/
def allDigits (l : List Char) : Bool := l.all (fun c => c.isDigit)

/-- Numeric value of a digit string, as `int()` computes it. -/
def charsToNat (l : List Char) : Nat :=
  l.foldl (fun acc c => acc * 10 + (c.toNat - 48)) 0

/-- The strptime day token `(3[01]|[12]\d|0[1-9]|[1-9])`: one or two digits
with value 1–31. -/
def dayTok (l : List Char) : Bool :=
  allDigits l && (l.length == 1 || l.length == 2) &&
    decide (1 ≤ charsToNat l) && decide (charsToNat l ≤ 31)

/-- The strptime month token `(1[0-2]|0[1-9]|[1-9])`: one or two digits
with value 1–12. -/
def monthTok (l : List Char) : Bool :=
  allDigits l && (l.length == 1 || l.length == 2) &&
    decide (1 ≤ charsToNat l) && decide (charsToNat l ≤ 12)

/-- The strptime year token `(\d\d\d\d)`: exactly four digits. -/
def yearTok (l : List Char) : Bool :=
  allDigits l && l.length == 4

/-- Model of `datetime.strptime(s, "%d.%m.%Y").date()`: the whole string
must match day-token `"."` month-token `"."` year-token, and the resulting
numbers must form a real `datetime.date`; any failure raises `ValueError`
(here `none`). -/
def parseBirthday (s : String) : Option PyDate :=
  match splitDots s.toList with
  | [ds, ms, ys] =>
    if dayTok ds && monthTok ms && yearTok ys then
      if dateValid (charsToNat ys) (charsToNat ms) (charsToNat ds) then
        some ⟨charsToNat ys, charsToNat ms, charsToNat ds⟩
      else none
    else none
  | _ => none

/-- Wrapper for a parsed birthday (`class Birthday(Field)`); stores the
date value, not the original string. -/
structure Birthday where
  value : PyDate
deriving DecidableEq

/-- The `Birthday` constructor: parses `DD.MM.YYYY` via strptime, raises
`ValueError` (here `none`) on failure. -/
def Birthday.mk? (value : String) : Option Birthday :=
  (parseBirthday value).map (fun dt => ⟨dt⟩)

/-- The ASCII character of a decimal digit. -/
def digitChar (n : Nat) : Char := Char.ofNat (48 + n % 10)

/-- Two-digit zero-padded rendering (`%d`, `%m` in strftime). -/
def pad2 (n : Nat) : List Char := [digitChar (n / 10), digitChar n]

/-- Four-digit rendering of a year (`%Y` in strftime; faithful to CPython
for years ≥ 1000, the only years the theorems below use). -/
def pad4 (n : Nat) : List Char :=
  [digitChar (n / 1000), digitChar (n / 100), digitChar (n / 10), digitChar n]

/-- Model of `date.strftime("%d.%m.%Y")`. -/
def formatDate (dt : PyDate) : String :=
  ⟨pad2 dt.day ++ '.' :: pad2 dt.month ++ '.' :: pad4 dt.year⟩

/- ### Contact records -/

/-- One contact: a name, an ordered phone list, an optional birthday
(`class Record`). -/
structure Record where
  name : Name
  phones : List Phone
  birthday : Option Birthday
deriving DecidableEq

/-- `Record.add_phone`: appends (the isinstance check always passes for a
constructed `Phone`). -/
def Record.add_phone (r : Record) (p : Phone) : Record :=
  { r with phones := r.phones ++ [p] }

/-- `Record.remove_phone`: keeps exactly the phones whose value differs
from the argument; a no-op when none match. -/
def Record.remove_phone (r : Record) (phone : String) : Record :=
  { r with phones := r.phones.filter (fun p => p.value != phone) }

/-- `Record.edit_phone`: removes every phone equal to `old_phone`, then
validates and appends `new_phone`.  If validation fails the `ValueError`
propagates (second component `some message`) after the removal has already
mutated the record. -/
def Record.edit_phone (r : Record) (old_phone new_phone : String) :
    Record × Option String :=
  let r2 := r.remove_phone old_phone
  if Phone.is_valid new_phone then
    (r2.add_phone ⟨new_phone⟩, none)
  else
    (r2, some "Phone number must be 10 digits.")

/-- `Record.add_birthday`: assigns/overwrites the optional birthday. -/
def Record.add_birthday (r : Record) (b : Birthday) : Record :=
  { r with birthday := some b }

/-- The `next_birthday` computation shared by `Record.days_to_birthday`
and `AddressBook.get_upcoming_birthdays`: substitute today's year into the
birthday, and if the result is strictly before today substitute next year
instead.  Either `replace` raises for Feb 29 in a non-leap target year
(`none`). -/
def nextBirthday (b today : PyDate) : Option PyDate :=
  match b.replaceYear today.year with
  | none => none
  | some nb =>
    if dateLt nb today then nb.replaceYear (today.year + 1) else some nb

/-- `Record.days_to_birthday`: `None` when no birthday is set, otherwise
`(next_birthday - today).days`; the `date.replace` call can raise
`ValueError` (modelled by `.error`).  `today` stands for
`datetime.today().date()`. -/
def Record.days_to_birthday (r : Record) (today : PyDate) :
    Except String (Option Int) :=
  match r.birthday with
  | none => .ok none
  | some b =>
    match nextBirthday b.value today with
    | none => .error "day is out of range for month"
    | some nb => .ok (some (dateDiff nb today))

/- ### The address book -/

/-- Exact-match lookup in an insertion-ordered association list, modelling
`dict.get`. -/
def lookupList : List (String × Record) → String → Option Record
  | [], _ => none
  | (k, r) :: rest, n => if k = n then some r else lookupList rest n

/-- Insertion-ordered store `self.data[k] = v` of a Python dict: an
existing key keeps its position, a new key is appended. -/
def dictSet : List (String × Record) → String → Record → List (String × Record)
  | [], k, v => [(k, v)]
  | (k2, v2) :: rest, k, v =>
    if k2 = k then (k, v) :: rest else (k2, v2) :: dictSet rest k v

/-- `class AddressBook(UserDict)`: its `data` dict, modelled as an
insertion-ordered association list from name strings to records. -/
structure AddressBook where
  data : List (String × Record)
deriving DecidableEq

/-- `AddressBook.add_record`: `self.data[record.name.value] = record`. -/
def AddressBook.add_record (book : AddressBook) (r : Record) : AddressBook :=
  ⟨dictSet book.data r.name.value r⟩

/-- `AddressBook.find_record`: `self.data.get(name)`. -/
def AddressBook.find_record (book : AddressBook) (name : String) : Option Record :=
  lookupList book.data name

/-- The loop body of `AddressBook.get_upcoming_birthdays` over the
remaining entries: skip records without a birthday, compute the next
birthday (a failing `replace` raises out of the whole loop), and keep the
record when the day distance lies in `[0, days]`. -/
def upcomingFrom (today : PyDate) (days : Int) :
    List (String × Record) → Except String (List Record)
  | [] => .ok []
  | (_, r) :: rest =>
    match r.birthday with
    | none => upcomingFrom today days rest
    | some b =>
      match nextBirthday b.value today with
      | none => .error "day is out of range for month"
      | some nb =>
        match upcomingFrom today days rest with
        | .error e => .error e
        | .ok tail =>
          if 0 ≤ dateDiff nb today ∧ dateDiff nb today ≤ days then
            .ok (r :: tail)
          else .ok tail

/-- `AddressBook.get_upcoming_birthdays(days=7)`; `today` stands for
`datetime.today().date()`. -/
def AddressBook.get_upcoming_birthdays (book : AddressBook) (days : Int)
    (today : PyDate) : Except String (List Record) :=
  upcomingFrom today days book.data

/-- Specification-side membership predicate for the upcoming-birthday
scan: the record has a birthday whose resolved next occurrence lies within
`[0, days]` days of today. -/
def wantsRecord (today : PyDate) (days : Int) (r : Record) : Bool :=
  match r.birthday with
  | none => false
  | some b =>
    match nextBirthday b.value today with
    | none => false
    | some nb => decide (0 ≤ dateDiff nb today ∧ dateDiff nb today ≤ days)

/-- A record's birthday (if any) resolves at today without
`date.replace` raising. -/
def recordResolves (today : PyDate) (r : Record) : Bool :=
  match r.birthday with
  | none => true
  | some b => (nextBirthday b.value today).isSome

/- ### Persistence: model of `pickle.dump` / `pickle.load` -/

/-- Atoms of the serialized byte stream pickle produces: the model keeps
numbers and strings abstract instead of raw bytes. -/
inductive Tok where
  | num : Nat → Tok
  | str : String → Tok
deriving DecidableEq

def encodePhoneList : List Phone → List Tok
  | [] => []
  | p :: ps => .str p.value :: encodePhoneList ps

/-- Serialized form of one `Record`: name, phone count, phones, then a
tagged optional birthday. -/
def encodeRecord (r : Record) : List Tok :=
  .str r.name.value :: .num r.phones.length ::
    (encodePhoneList r.phones ++
      match r.birthday with
      | none => [.num 0]
      | some b => [.num 1, .num b.value.year, .num b.value.month, .num b.value.day])

def encodeEntryList : List (String × Record) → List Tok
  | [] => []
  | (k, r) :: es => (.str k :: encodeRecord r) ++ encodeEntryList es

/-- `save_data(book, filename)`: `pickle.dump` of the whole `AddressBook`;
the result is the content written at the destination. -/
def save_data (book : AddressBook) : List Tok :=
  .num book.data.length :: encodeEntryList book.data

def decodePhoneList : Nat → List Tok → Option (List Phone × List Tok)
  | 0, ts => some ([], ts)
  | n + 1, .str s :: ts =>
    match decodePhoneList n ts with
    | some (ps, rest) => some (⟨s⟩ :: ps, rest)
    | none => none
  | _ + 1, _ => none

def decodeBirthdayTok : List Tok → Option (Option Birthday × List Tok)
  | .num 0 :: ts => some (none, ts)
  | .num 1 :: .num y :: .num m :: .num d :: ts => some (some ⟨⟨y, m, d⟩⟩, ts)
  | _ => none

def decodeRecordTok : List Tok → Option (Record × List Tok)
  | .str name :: .num n :: ts =>
    (match decodePhoneList n ts with
     | some (ps, ts2) =>
       match decodeBirthdayTok ts2 with
       | some (b, ts3) => some (⟨⟨name⟩, ps, b⟩, ts3)
       | none => none
     | none => none)
  | _ => none

def decodeEntryList : Nat → List Tok → Option (List (String × Record) × List Tok)
  | 0, ts => some ([], ts)
  | n + 1, .str k :: ts =>
    (match decodeRecordTok ts with
     | some (r, ts2) =>
       match decodeEntryList n ts2 with
       | some (es, ts3) => some ((k, r) :: es, ts3)
       | none => none
     | none => none)
  | _ + 1, _ => none

/-- `pickle.load`: reconstructs an `AddressBook` from the stream, raising
`UnpicklingError` (here `none`) when the content cannot be parsed. -/
def decodeBook : List Tok → Option AddressBook
  | .num n :: ts =>
    (match decodeEntryList n ts with
     | some (es, _) => some ⟨es⟩
     | none => none)
  | _ => none

/-- The fatal condition of `load_data` on unparsable content: the
`pickle.UnpicklingError` propagates uncaught (the spec's
`CorruptStateError`). -/
inductive LoadError where
  | corrupt : LoadError
deriving DecidableEq

/-- `load_data(filename)`: a missing file (`FileNotFoundError`, modelled by
`none`) yields a fresh empty `AddressBook`; existing content is unpickled,
and a parse failure propagates as `LoadError.corrupt`. -/
def load_data : Option (List Tok) → Except LoadError AddressBook
  | none => .ok ⟨[]⟩
  | some ts =>
    match decodeBook ts with
    | some b => .ok b
    | none => .error .corrupt

/- ### The `add` command handler -/

/-- Tail of `add_contact` after the phone step: `if birthday:` then
`record.add_birthday(Birthday(birthday))`, whose `ValueError` is caught by
`input_error` and rendered as a message, leaving earlier mutations in
place. -/
def addContactBirthday (name : String) (birthday : Option String)
    (book : AddressBook) (r : Record) (msg : String) : AddressBook × String :=
  match birthday with
  | none => (book, msg)
  | some bs =>
    if bs ≠ "" then
      match parseBirthday bs with
      | some dt => (⟨dictSet book.data name (r.add_birthday ⟨dt⟩)⟩, msg)
      | none => (book, "Error: Invalid date format. Use DD.MM.YYYY")
    else (book, msg)

/-- Middle of `add_contact`: `if phone:` then `record.add_phone(Phone(phone))`,
whose `ValueError` is caught by `input_error` and rendered as a message,
leaving the already-inserted record in place. -/
def addContactFields (name phone : String) (birthday : Option String)
    (book : AddressBook) (r : Record) (msg : String) : AddressBook × String :=
  if phone ≠ "" then
    if Phone.is_valid phone then
      addContactBirthday name birthday
        ⟨dictSet book.data name (r.add_phone ⟨phone⟩)⟩ (r.add_phone ⟨phone⟩) msg
    else (book, "Error: Phone number must be 10 digits.")
  else addContactBirthday name birthday book r msg

/-- The `add <name> <phone> [birthday]` handler `add_contact(args, book)`
after argument unpacking, including the `input_error` decorator: a missing
record is created and inserted *before* the phone and birthday are
validated, and each `ValueError` is converted to an error message. -/
def add_contact (name phone : String) (birthday : Option String)
    (book : AddressBook) : AddressBook × String :=
  match book.find_record name with
  | some r => addContactFields name phone birthday book r "Contact updated."
  | none =>
    if Name.is_valid name then
      addContactFields name phone birthday
        (book.add_record ⟨⟨name⟩, [], none⟩) ⟨⟨name⟩, [], none⟩ "Contact added."
    else (book, "Error: Name must be a non-empty string.")

/- ### Persistence round-trip -/

theorem decodePhoneList_encode (ps : List Phone) (rest : List Tok) :
    decodePhoneList ps.length (encodePhoneList ps ++ rest) = some (ps, rest) := by
  induction ps with
  | nil => rfl
  | cons p ps ih => simp [encodePhoneList, decodePhoneList, ih]

theorem decodeBirthdayTok_encode (b : Option Birthday) (rest : List Tok) :
    decodeBirthdayTok
      ((match b with
        | none => [Tok.num 0]
        | some b => [Tok.num 1, Tok.num b.value.year, Tok.num b.value.month,
            Tok.num b.value.day]) ++ rest) = some (b, rest) := by
  match b with
  | none => rfl
  | some b => rfl

theorem decodeRecordTok_encode (r : Record) (rest : List Tok) :
    decodeRecordTok (encodeRecord r ++ rest) = some (r, rest) := by
  show decodeRecordTok (Tok.str r.name.value :: Tok.num r.phones.length ::
    ((encodePhoneList r.phones ++ _) ++ rest)) = _
  rw [List.append_assoc]
  simp only [decodeRecordTok, decodePhoneList_encode, decodeBirthdayTok_encode]

theorem decodeEntryList_encode (es : List (String × Record)) (rest : List Tok) :
    decodeEntryList es.length (encodeEntryList es ++ rest) = some (es, rest) := by
  induction es with
  | nil => rfl
  | cons e es ih =>
    obtain ⟨k, r⟩ := e
    show decodeEntryList (es.length + 1)
      ((Tok.str k :: encodeRecord r) ++ encodeEntryList es ++ rest) = _
    simp only [List.cons_append, List.append_assoc]
    simp only [decodeEntryList, decodeRecordTok_encode, ih]

/-- C1: saving an `AddressBook` and loading the result back yields an
`AddressBook` with identical contents — the same names, the same phone
lists in the same order, and the same birthdays (here: an equal
`AddressBook` value). -/
theorem save_load_roundtrip (book : AddressBook) :
    load_data (some (save_data book)) = .ok book := by
  show load_data (some (Tok.num book.data.length :: encodeEntryList book.data)) = _
  have h := decodeEntryList_encode book.data []
  rw [List.append_nil] at h
  simp only [load_data, decodeBook, h]

/- ### `edit_phone` partial failure -/

/-- C2: when the new phone fails validation, `edit_phone` still removes
every phone equal to the old value and appends nothing; the record is left
in the partially mutated state and the `ValueError` propagates. -/
theorem edit_phone_fail_removes_old (r : Record) (oldP newP : String)
    (h : Phone.is_valid newP = false) :
    (r.edit_phone oldP newP).1.phones =
      r.phones.filter (fun p => p.value != oldP) ∧
    (∀ p ∈ (r.edit_phone oldP newP).1.phones, p.value ≠ oldP) ∧
    (r.edit_phone oldP newP).2 = some "Phone number must be 10 digits." := by
  refine ⟨?_, ?_, ?_⟩ <;>
    simp only [Record.edit_phone, Record.remove_phone, h, Bool.false_eq_true,
      if_false, bne_iff_ne, ne_eq]
  intro p hp
  simpa using (List.mem_filter.mp hp).2

theorem edit_phone_fail_removes_old_witness :
    ((Record.mk ⟨"Ann"⟩ [⟨"0000000000"⟩, ⟨"1234567890"⟩, ⟨"0000000000"⟩] none).edit_phone
        "0000000000" "12345").1.phones = [⟨"1234567890"⟩] ∧
    ((Record.mk ⟨"Ann"⟩ [⟨"0000000000"⟩, ⟨"1234567890"⟩, ⟨"0000000000"⟩] none).edit_phone
        "0000000000" "12345").2 = some "Phone number must be 10 digits." := by
  have h := edit_phone_fail_removes_old
    (Record.mk ⟨"Ann"⟩ [⟨"0000000000"⟩, ⟨"1234567890"⟩, ⟨"0000000000"⟩] none)
    "0000000000" "12345" (by decide)
  exact ⟨h.1.trans (by decide), h.2.2⟩

/- ### `load_data` on missing and on corrupt state -/

/-- C3: loading from a nonexistent path yields a freshly constructed empty
`AddressBook` (not an error); loading content that cannot be unpickled
signals the corrupt-state error instead of silently returning an empty
book. -/
theorem load_data_missing_or_corrupt :
    load_data none = .ok ⟨[]⟩ ∧
    ∀ ts, decodeBook ts = none → load_data (some ts) = .error .corrupt := by
  refine ⟨rfl, fun ts h => ?_⟩
  simp only [load_data, h]

theorem load_data_missing_or_corrupt_witness :
    load_data (some [Tok.num 5]) = .error .corrupt :=
  load_data_missing_or_corrupt.2 [Tok.num 5] rfl

/- ### `add_contact` partial mutation on validation failure -/

theorem dictSet_of_absent (l : List (String × Record)) (k : String) (v : Record)
    (h : lookupList l k = none) : dictSet l k v = l ++ [(k, v)] := by
  induction l with
  | nil => rfl
  | cons e rest ih =>
    obtain ⟨k2, v2⟩ := e
    by_cases hk : k2 = k
    · simp only [lookupList, hk, if_true] at h
      cases h
    · simp only [lookupList, hk, if_false] at h
      simp only [dictSet, hk, if_false, List.cons_append, ih h]

/-- C4 counterexample: `add "Ann" 123` on an empty book reports the phone
`ValidationError` but has already inserted a new record for the previously
absent name, and `add "Bob" 1234567890 31.02.2024` reports the birthday
`ValidationError` but has already appended the phone — contradicting the
claim that no record is inserted and no phone is appended when a later
argument of the call fails validation. -/
theorem add_contact_inserts_despite_invalid :
    Phone.is_valid "123" = false ∧
    add_contact "Ann" "123" none ⟨[]⟩ =
      (⟨[("Ann", ⟨⟨"Ann"⟩, [], none⟩)]⟩, "Error: Phone number must be 10 digits.") ∧
    parseBirthday "31.02.2024" = none ∧
    add_contact "Bob" "1234567890" (some "31.02.2024") ⟨[]⟩ =
      (⟨[("Bob", ⟨⟨"Bob"⟩, [⟨"1234567890"⟩], none⟩)]⟩,
       "Error: Invalid date format. Use DD.MM.YYYY") := by
  refine ⟨by decide, by decide, by decide, by decide⟩

/-- C4 amended: when the phone of an `add` call fails validation the
`ValidationError` is reported and the failing field itself is not stored,
but the mutations already performed persist: a previously absent (valid)
name has been inserted as a new empty record; and when the phone is valid
but the birthday fails validation, the phone has already been appended to
the record. -/
theorem add_contact_partial_effects :
    (∀ (book : AddressBook) (name phone : String) (bd : Option String),
       book.find_record name = none → Name.is_valid name = true →
       phone ≠ "" → Phone.is_valid phone = false →
       add_contact name phone bd book =
         (⟨book.data ++ [(name, ⟨⟨name⟩, [], none⟩)]⟩,
          "Error: Phone number must be 10 digits.")) ∧
    (∀ (book : AddressBook) (name phone bs : String) (r : Record),
       book.find_record name = some r →
       phone ≠ "" → Phone.is_valid phone = true →
       bs ≠ "" → parseBirthday bs = none →
       add_contact name phone (some bs) book =
         (⟨dictSet book.data name (r.add_phone ⟨phone⟩)⟩,
          "Error: Invalid date format. Use DD.MM.YYYY")) := by
  constructor
  · intro book name phone bd hfind hname hphone hinvalid
    rw [show book.data ++ [(name, (⟨⟨name⟩, [], none⟩ : Record))] =
        dictSet book.data name ⟨⟨name⟩, [], none⟩ from
      (dictSet_of_absent _ _ _ hfind).symm]
    simp [add_contact, addContactFields, AddressBook.add_record, hfind, hname,
      hphone, hinvalid]
  · intro book name phone bs r hfind hphone hvalid hbs hparse
    simp [add_contact, addContactFields, addContactBirthday, hfind, hphone,
      hvalid, hbs, hparse]

theorem add_contact_partial_effects_witness :
    add_contact "Ann" "12" none ⟨[]⟩ =
      (⟨[("Ann", ⟨⟨"Ann"⟩, [], none⟩)]⟩, "Error: Phone number must be 10 digits.") ∧
    add_contact "Bob" "1234567890" (some "31.02.2024")
        ⟨[("Bob", ⟨⟨"Bob"⟩, [], none⟩)]⟩ =
      (⟨[("Bob", ⟨⟨"Bob"⟩, [⟨"1234567890"⟩], none⟩)]⟩,
       "Error: Invalid date format. Use DD.MM.YYYY") := by
  constructor
  · exact (add_contact_partial_effects.1 ⟨[]⟩ "Ann" "12" none rfl (by decide)
      (by decide) (by decide)).trans (by decide)
  · exact (add_contact_partial_effects.2 ⟨[("Bob", ⟨⟨"Bob"⟩, [], none⟩)]⟩
      "Bob" "1234567890" "31.02.2024" ⟨⟨"Bob"⟩, [], none⟩ rfl (by decide)
      (by decide) (by decide) (by decide)).trans (by decide)

/- ### Feb 29 birthdays raise out of the naive year substitution -/

/-- C6: the code contradicts the claim — for a Feb 29 birthday and a today
in a non-leap year, `date.replace(year=...)` raises `ValueError` instead
of resolving to a concrete date, both in `days_to_birthday` and inside
`get_upcoming_birthdays`; the error branch is reachable. -/
theorem days_to_birthday_feb29_error :
    Record.days_to_birthday ⟨⟨"A"⟩, [], some ⟨⟨2024, 2, 29⟩⟩⟩ ⟨2025, 6, 15⟩ =
      .error "day is out of range for month" ∧
    AddressBook.get_upcoming_birthdays
        ⟨[("A", ⟨⟨"A"⟩, [], some ⟨⟨2024, 2, 29⟩⟩⟩)]⟩ 7 ⟨2025, 6, 15⟩ =
      .error "day is out of range for month" := ⟨rfl, rfl⟩

/- ### Ordinal arithmetic: the date order agrees with `toOrdinal` -/

theorem daysBeforeMonth_succ (y m : Nat) (h1 : 1 ≤ m) (h2 : m ≤ 12) :
    daysBeforeMonth y (m + 1) = daysBeforeMonth y m + daysInMonth y m := by
  interval_cases m <;>
    · by_cases hl : isLeap y <;>
        simp [daysBeforeMonth, daysInMonth, monthTable, hl]

theorem daysBeforeMonth_mono (y : Nat) {m1 m2 : Nat} (h0 : 1 ≤ m1)
    (h : m1 ≤ m2) (h13 : m2 ≤ 13) :
    daysBeforeMonth y m1 ≤ daysBeforeMonth y m2 := by
  induction m2 with
  | zero => omega
  | succ n ih =>
    rcases Nat.lt_or_ge m1 (n + 1) with hlt | hge
    · have hstep : daysBeforeMonth y n ≤ daysBeforeMonth y (n + 1) := by
        rcases Nat.eq_zero_or_pos n with h0n | h0n
        · omega
        · rw [daysBeforeMonth_succ y n h0n (by omega)]; omega
      exact le_trans (ih (by omega) (by omega)) hstep
    · have heq : m1 = n + 1 := by omega
      rw [heq]

theorem ord_month_bound (y m d : Nat) (h : dateValid y m d) :
    daysBeforeMonth y m + d ≤ daysBeforeMonth y 13 := by
  obtain ⟨-, -, h1, h2, -, h4⟩ := h
  calc daysBeforeMonth y m + d ≤ daysBeforeMonth y m + daysInMonth y m := by omega
    _ = daysBeforeMonth y (m + 1) := (daysBeforeMonth_succ y m h1 h2).symm
    _ ≤ daysBeforeMonth y 13 := daysBeforeMonth_mono y (by omega) (by omega) (by omega)

theorem daysBeforeYear_succ (y : Nat) (h1 : 1 ≤ y) :
    daysBeforeYear (y + 1) = daysBeforeYear y + daysBeforeMonth y 13 := by
  have ht : monthTable 13 = 365 := rfl
  unfold daysBeforeYear daysBeforeMonth
  rw [ht]
  obtain ⟨k, rfl⟩ : ∃ k, y = k + 1 := ⟨y - 1, by omega⟩
  have e4 := Nat.succ_div k 4
  have e100 := Nat.succ_div k 100
  have e400 := Nat.succ_div k 400
  by_cases hl : isLeap (k + 1)
  · rw [if_pos ⟨by norm_num, hl⟩]
    unfold isLeap at hl
    by_cases p4 : 4 ∣ k + 1 <;> by_cases p100 : 100 ∣ k + 1 <;>
      by_cases p400 : 400 ∣ k + 1 <;>
      simp only [p4, p100, p400, if_true, if_false] at e4 e100 e400 <;> omega
  · rw [if_neg (fun hc => hl hc.2)]
    unfold isLeap at hl
    by_cases p4 : 4 ∣ k + 1 <;> by_cases p100 : 100 ∣ k + 1 <;>
      by_cases p400 : 400 ∣ k + 1 <;>
      simp only [p4, p100, p400, if_true, if_false] at e4 e100 e400 <;> omega

theorem daysBeforeYear_mono {y1 y2 : Nat} (h : y1 ≤ y2) :
    daysBeforeYear y1 ≤ daysBeforeYear y2 := by
  unfold daysBeforeYear
  have h4 : (y1 - 1) / 4 ≤ (y2 - 1) / 4 := Nat.div_le_div_right (by omega)
  have h400 : (y1 - 1) / 400 ≤ (y2 - 1) / 400 := Nat.div_le_div_right (by omega)
  have ha : (y1 - 1) / 100 ≤ (y1 - 1) / 4 :=
    Nat.div_le_div_left (by norm_num) (by norm_num)
  have hb : (y2 - 1) / 100 ≤ (y2 - 1) / 4 :=
    Nat.div_le_div_left (by norm_num) (by norm_num)
  have e1 : y2 - 1 ≤ (y1 - 1) + 100 * ((y2 - 1) - (y1 - 1)) := by omega
  have e2 : (y2 - 1) / 100 ≤ ((y1 - 1) + 100 * ((y2 - 1) - (y1 - 1))) / 100 :=
    Nat.div_le_div_right e1
  rw [Nat.add_mul_div_left _ _ (by norm_num)] at e2
  omega

theorem toOrdinal_lt_of_dateLt {a b : PyDate} (ha : a.valid) (hb : b.valid)
    (h : dateLt a b) : toOrdinal a < toOrdinal b := by
  obtain ⟨ay, am, ad⟩ := a
  obtain ⟨cy, cm, cd⟩ := b
  unfold PyDate.valid dateValid at ha hb
  unfold dateLt at h
  obtain ⟨ha1, ha2, ha3, ha4, ha5, ha6⟩ := ha
  obtain ⟨hb1, hb2, hb3, hb4, hb5, hb6⟩ := hb
  unfold toOrdinal
  simp only at *
  rcases h with hy | ⟨hy, hm | ⟨hm, hd⟩⟩
  · have hbound : daysBeforeMonth ay am + ad ≤ daysBeforeMonth ay 13 :=
      ord_month_bound ay am ad ⟨ha1, ha2, ha3, ha4, ha5, ha6⟩
    have hsucc := daysBeforeYear_succ ay ha1
    have hmono : daysBeforeYear (ay + 1) ≤ daysBeforeYear cy :=
      daysBeforeYear_mono (by omega)
    have hpos : 0 ≤ daysBeforeMonth cy cm := Nat.zero_le _
    omega
  · subst hy
    have h1 : daysBeforeMonth ay am + ad ≤ daysBeforeMonth ay (am + 1) := by
      rw [daysBeforeMonth_succ ay am ha3 ha4]; omega
    have h2 : daysBeforeMonth ay (am + 1) ≤ daysBeforeMonth ay cm :=
      daysBeforeMonth_mono ay (by omega) (by omega) (by omega)
    omega
  · subst hy; subst hm
    omega

theorem toOrdinal_le_of_not_dateLt {a b : PyDate} (ha : a.valid) (hb : b.valid)
    (h : ¬ dateLt b a) : toOrdinal a ≤ toOrdinal b := by
  rcases eq_or_ne a b with rfl | hne
  · exact le_refl _
  · refine le_of_lt (toOrdinal_lt_of_dateLt ha hb ?_)
    unfold dateLt at h ⊢
    obtain ⟨ay, am, ad⟩ := a
    obtain ⟨cy, cm, cd⟩ := b
    have hne2 : ¬(ay = cy ∧ am = cm ∧ ad = cd) := by
      intro hc
      exact hne (by rw [hc.1, hc.2.1, hc.2.2])
    dsimp only at h ⊢
    omega

theorem replaceYear_fields {dt : PyDate} {y : Nat} {nb : PyDate}
    (h : dt.replaceYear y = some nb) :
    nb.valid ∧ nb.year = y ∧ nb.month = dt.month ∧ nb.day = dt.day := by
  unfold PyDate.replaceYear at h
  split at h
  · cases h
    exact ⟨by assumption, rfl, rfl, rfl⟩
  · cases h

/- ### `days_to_birthday` -/

/-- C5 counterexample: with today = 01.01.2025 and birthday 25.12.1990 the
code returns 358 days (01.01.2025 to 25.12.2025), not the 359 the claim
states. -/
theorem days_to_birthday_dec25_counterexample :
    Record.days_to_birthday ⟨⟨"A"⟩, [], some ⟨⟨1990, 12, 25⟩⟩⟩ ⟨2025, 1, 1⟩ =
      .ok (some 358) ∧ (358 : Int) ≠ 359 := by
  exact ⟨rfl, by omega⟩

/-- C5 (amended): `days_to_birthday` returns `None` when no birthday is
set; otherwise — provided the birthday's month/day exists in the target
year, i.e. `date.replace` does not raise — it returns the non-negative day
count from today to the birthday's month/day placed in today's year, or in
today's year + 1 when that date is strictly before today; in particular,
with today = 01.01.2025, birthday 05.01.1990 gives 4 and birthday
25.12.1990 gives 358 (not 359). -/
theorem days_to_birthday_spec :
    (∀ (r : Record) (t : PyDate), r.birthday = none →
       r.days_to_birthday t = .ok none) ∧
    (∀ (r : Record) (b : Birthday) (t nb : PyDate), r.birthday = some b →
       t.valid → b.value.replaceYear t.year = some nb →
       (¬ dateLt nb t →
          r.days_to_birthday t = .ok (some (dateDiff nb t)) ∧
            0 ≤ dateDiff nb t) ∧
       (dateLt nb t → ∀ nb2, nb.replaceYear (t.year + 1) = some nb2 →
          r.days_to_birthday t = .ok (some (dateDiff nb2 t)) ∧
            0 ≤ dateDiff nb2 t)) ∧
    Record.days_to_birthday ⟨⟨"A"⟩, [], some ⟨⟨1990, 1, 5⟩⟩⟩ ⟨2025, 1, 1⟩ =
      .ok (some 4) ∧
    Record.days_to_birthday ⟨⟨"A"⟩, [], some ⟨⟨1990, 12, 25⟩⟩⟩ ⟨2025, 1, 1⟩ =
      .ok (some 358) := by
  refine ⟨?_, ?_, rfl, rfl⟩
  · intro r t hb
    unfold Record.days_to_birthday
    rw [hb]
  · intro r b t nb hb ht hrep
    have hfields := replaceYear_fields hrep
    constructor
    · intro hlt
      refine ⟨?_, ?_⟩
      · unfold Record.days_to_birthday nextBirthday
        rw [hb]
        dsimp only
        rw [hrep]
        dsimp only
        rw [if_neg hlt]
      · have hle := toOrdinal_le_of_not_dateLt ht hfields.1 hlt
        unfold dateDiff
        omega
    · intro hlt nb2 hrep2
      have hf2 := replaceYear_fields hrep2
      refine ⟨?_, ?_⟩
      · unfold Record.days_to_birthday nextBirthday
        rw [hb]
        dsimp only
        rw [hrep]
        dsimp only
        rw [if_pos hlt, hrep2]
      · have hlt2 : dateLt t nb2 := Or.inl (by rw [hf2.2.1]; omega)
        have hltord := toOrdinal_lt_of_dateLt ht hf2.1 hlt2
        unfold dateDiff
        omega

theorem days_to_birthday_spec_witness :
    Record.days_to_birthday ⟨⟨"A"⟩, [], some ⟨⟨1990, 1, 5⟩⟩⟩ ⟨2025, 1, 1⟩ =
      .ok (some (dateDiff ⟨2025, 1, 5⟩ ⟨2025, 1, 1⟩)) ∧
    0 ≤ dateDiff ⟨2025, 1, 5⟩ ⟨2025, 1, 1⟩ :=
  (days_to_birthday_spec.2.1 ⟨⟨"A"⟩, [], some ⟨⟨1990, 1, 5⟩⟩⟩ ⟨⟨1990, 1, 5⟩⟩
    ⟨2025, 1, 1⟩ ⟨2025, 1, 5⟩ rfl (by decide) (by decide)).1 (by decide)

/- ### `get_upcoming_birthdays` -/

theorem upcomingFrom_eq_filter (t : PyDate) (days : Int)
    (l : List (String × Record))
    (h : ∀ e ∈ l, recordResolves t e.2 = true) :
    upcomingFrom t days l = .ok ((l.map Prod.snd).filter (wantsRecord t days)) := by
  induction l with
  | nil => rfl
  | cons e rest ih =>
    obtain ⟨k, r⟩ := e
    have hr : recordResolves t r = true := h (k, r) (List.mem_cons_self _ _)
    have hrest := ih (fun e he => h e (List.mem_cons_of_mem _ he))
    unfold recordResolves at hr
    match hb : r.birthday with
    | none =>
      rw [hb] at hr
      rw [show upcomingFrom t days ((k, r) :: rest) = upcomingFrom t days rest from by
        conv_lhs => rw [upcomingFrom]
        rw [hb]]
      rw [hrest]
      congr 1
      simp [List.filter_cons, wantsRecord, hb]
    | some b =>
      rw [hb] at hr
      obtain ⟨nb, hnb⟩ := Option.isSome_iff_exists.mp hr
      have hstep : upcomingFrom t days ((k, r) :: rest) =
          if 0 ≤ dateDiff nb t ∧ dateDiff nb t ≤ days
          then .ok (r :: (rest.map Prod.snd).filter (wantsRecord t days))
          else .ok ((rest.map Prod.snd).filter (wantsRecord t days)) := by
        conv_lhs => rw [upcomingFrom]
        rw [hb]
        dsimp only
        rw [hnb]
        dsimp only
        rw [hrest]
        try rfl
      rw [hstep]
      have hw : wantsRecord t days r =
          decide (0 ≤ dateDiff nb t ∧ dateDiff nb t ≤ days) := by
        unfold wantsRecord
        rw [hb]
        dsimp only
        rw [hnb]
      by_cases hc : 0 ≤ dateDiff nb t ∧ dateDiff nb t ≤ days
      · rw [if_pos hc]
        congr 1
        simp [List.filter_cons, hw, hc]
      · rw [if_neg hc]
        congr 1
        simp [List.filter_cons, hw, hc]

/-- C7 counterexample: on a directory containing a Feb 29 birthday with a
non-leap target year, `get_upcoming_birthdays` raises out of
`date.replace` instead of returning the filtered record list the claim
promises for every directory and every today. -/
theorem get_upcoming_feb29_counterexample :
    AddressBook.get_upcoming_birthdays
        ⟨[("Feb", ⟨⟨"Feb"⟩, [], some ⟨⟨2024, 2, 29⟩⟩⟩)]⟩ 7 ⟨2025, 7, 1⟩ =
      .error "day is out of range for month" ∧
    (Except.error "day is out of range for month" :
        Except String (List Record)) ≠
      .ok (([("Feb", (⟨⟨"Feb"⟩, [], some ⟨⟨2024, 2, 29⟩⟩⟩ : Record))].map
            Prod.snd).filter (wantsRecord ⟨2025, 7, 1⟩ 7)) :=
  ⟨rfl, by simp⟩

/-- C7 (amended): provided every stored birthday resolves at today (no
Feb 29 birthday with a non-leap target year — otherwise the call signals
an error), `get_upcoming_birthdays(days)` returns exactly the records
whose days-to-next-birthday value lies in `[0, days]`, in directory
insertion order; on a directory whose birthday offsets are 3, 0, 8, 7 it
returns exactly the offset-3, offset-0 and offset-7 records, in insertion
order (not sorted by proximity). -/
theorem get_upcoming_spec :
    (∀ (book : AddressBook) (days : Int) (t : PyDate),
       (∀ e ∈ book.data, recordResolves t e.2 = true) →
       book.get_upcoming_birthdays days t =
         .ok ((book.data.map Prod.snd).filter (wantsRecord t days))) ∧
    AddressBook.get_upcoming_birthdays
        ⟨[("B3", ⟨⟨"B3"⟩, [], some ⟨⟨1990, 6, 18⟩⟩⟩),
          ("B0", ⟨⟨"B0"⟩, [], some ⟨⟨1990, 6, 15⟩⟩⟩),
          ("B8", ⟨⟨"B8"⟩, [], some ⟨⟨1990, 6, 23⟩⟩⟩),
          ("B7", ⟨⟨"B7"⟩, [], some ⟨⟨1990, 6, 22⟩⟩⟩)]⟩ 7 ⟨2025, 6, 15⟩ =
      .ok [⟨⟨"B3"⟩, [], some ⟨⟨1990, 6, 18⟩⟩⟩,
           ⟨⟨"B0"⟩, [], some ⟨⟨1990, 6, 15⟩⟩⟩,
           ⟨⟨"B7"⟩, [], some ⟨⟨1990, 6, 22⟩⟩⟩] := by
  refine ⟨?_, rfl⟩
  intro book days t h
  exact upcomingFrom_eq_filter t days book.data h

theorem get_upcoming_spec_witness :
    AddressBook.get_upcoming_birthdays
        ⟨[("B0", ⟨⟨"B0"⟩, [], some ⟨⟨1990, 6, 18⟩⟩⟩)]⟩ 7 ⟨2025, 6, 15⟩ =
      .ok (([("B0", (⟨⟨"B0"⟩, [], some ⟨⟨1990, 6, 18⟩⟩⟩ : Record))].map
            Prod.snd).filter (wantsRecord ⟨2025, 6, 15⟩ 7)) :=
  get_upcoming_spec.1 ⟨[("B0", ⟨⟨"B0"⟩, [], some ⟨⟨1990, 6, 18⟩⟩⟩)]⟩ 7
    ⟨2025, 6, 15⟩ (by decide)

/- ### Phone validation -/

theorem phone_is_valid_iff (s : String) :
    Phone.is_valid s = true ↔
      (s.length = 10 ∧ s.toList.all pyIsDigitChar = true) := by
  unfold Phone.is_valid pyStrIsDigit
  simp only [Bool.and_eq_true, bne_iff_ne, ne_eq, beq_iff_eq]
  constructor
  · rintro ⟨⟨h0, ha⟩, h10⟩
    exact ⟨h10, ha⟩
  · rintro ⟨h10, ha⟩
    exact ⟨⟨by omega, ha⟩, h10⟩

theorem all_isDigit_imp_pyIsDigit (l : List Char)
    (hl : l.all (fun c => c.isDigit) = true) : l.all pyIsDigitChar = true := by
  rw [List.all_eq_true] at hl ⊢
  intro c hc
  have := hl c hc
  simp only [pyIsDigitChar, Bool.or_eq_true]
  exact Or.inl (Or.inl (Or.inl (by simpa using this)))

/-- C8 counterexample: the ten-character string of superscript-two
characters is accepted by `Phone.is_valid` — Python `str.isdigit` is true
for the superscript digits — even though it does not consist of decimal
digits, so "succeeds iff exactly 10 decimal digits" is false. -/
theorem phone_superscript_counterexample :
    Phone.is_valid "²²²²²²²²²²" = true ∧
    "²²²²²²²²²²".toList.all (fun c => c.isDigit) = false := by
  exact ⟨by decide, by decide⟩

/-- C8 (amended): `Phone.is_valid` succeeds iff the string has exactly 10
characters each accepted by Python `str.isdigit`; every 10-character
all-ASCII-decimal string is accepted and the stored `PhoneNumber` renders
exactly as the input; any string of length ≠ 10, or containing a character
`isdigit` rejects, fails — but `isdigit` also accepts some non-decimal
digit characters (such as superscripts), so "all decimal digits" is not
exactly the acceptance condition. -/
theorem phone_is_valid_spec :
    (∀ s : String, Phone.is_valid s = true ↔
       (s.length = 10 ∧ s.toList.all pyIsDigitChar = true)) ∧
    (∀ s : String, s.length = 10 → s.toList.all (fun c => c.isDigit) = true →
       Phone.is_valid s = true) ∧
    (∀ (s : String) (p : Phone), Phone.mk? s = some p → p.str = s) ∧
    (∀ s : String, s.length ≠ 10 → Phone.is_valid s = false) ∧
    (∀ s : String, s.toList.all pyIsDigitChar = false →
       Phone.is_valid s = false) := by
  refine ⟨phone_is_valid_iff, ?_, ?_, ?_, ?_⟩
  · intro s h10 hd
    exact (phone_is_valid_iff s).mpr ⟨h10, all_isDigit_imp_pyIsDigit _ hd⟩
  · intro s p hp
    unfold Phone.mk? at hp
    split at hp
    · cases hp; rfl
    · cases hp
  · intro s hlen
    cases h : Phone.is_valid s
    · rfl
    · exact absurd ((phone_is_valid_iff s).mp h).1 hlen
  · intro s hd
    cases h : Phone.is_valid s
    · rfl
    · rw [((phone_is_valid_iff s).mp h).2] at hd
      cases hd

theorem phone_is_valid_spec_witness :
    Phone.is_valid "0123456789" = true ∧
    Phone.str ⟨"0123456789"⟩ = "0123456789" ∧
    Phone.is_valid "12345" = false :=
  ⟨phone_is_valid_spec.2.1 "0123456789" (by decide) (by decide),
   phone_is_valid_spec.2.2.1 "0123456789" ⟨"0123456789"⟩ (by decide),
   phone_is_valid_spec.2.2.2.1 "12345" (by decide)⟩

/- ### Names are stored verbatim -/

theorem lookupList_dictSet_self (l : List (String × Record)) (k : String)
    (v : Record) : lookupList (dictSet l k v) k = some v := by
  induction l with
  | nil => simp [dictSet, lookupList]
  | cons e rest ih =>
    obtain ⟨k2, v2⟩ := e
    by_cases h : k2 = k <;> simp [dictSet, lookupList, h, ih]

/-- C10: an accepted name is stored exactly as entered — stripping is used
only for the validity check — and the directory key is the stored name, so
two inputs differing only in surrounding whitespace create two distinct
contacts. -/
theorem name_stored_verbatim :
    (∀ v : String, Name.is_valid v = true → Name.mk? v = some ⟨v⟩) ∧
    (∀ (book : AddressBook) (r : Record),
       (book.add_record r).find_record r.name.value = some r) ∧
    Name.is_valid " Ann " = true ∧
    ((⟨[]⟩ : AddressBook).add_record ⟨⟨"Ann"⟩, [], none⟩).add_record
        ⟨⟨" Ann "⟩, [], none⟩ =
      ⟨[("Ann", ⟨⟨"Ann"⟩, [], none⟩), (" Ann ", ⟨⟨" Ann "⟩, [], none⟩)]⟩ := by
  refine ⟨?_, ?_, by decide, by decide⟩
  · intro v h
    simp [Name.mk?, h]
  · intro book r
    unfold AddressBook.add_record AddressBook.find_record
    exact lookupList_dictSet_self book.data _ r

theorem name_stored_verbatim_witness :
    Name.mk? " Ann " = some ⟨" Ann "⟩ ∧
    ((AddressBook.mk [("Ann", ⟨⟨"Ann"⟩, [], none⟩)]).add_record
        ⟨⟨" Ann "⟩, [], none⟩).find_record " Ann " =
      some ⟨⟨" Ann "⟩, [], none⟩ :=
  ⟨name_stored_verbatim.1 " Ann " (by decide),
   name_stored_verbatim.2.1 ⟨[("Ann", ⟨⟨"Ann"⟩, [], none⟩)]⟩
     ⟨⟨" Ann "⟩, [], none⟩⟩

/- ### Birthday parsing and rendering -/

theorem digitChar_toNat (n : Nat) : (digitChar n).toNat = 48 + n % 10 := by
  have h : n % 10 < 10 := Nat.mod_lt _ (by norm_num)
  unfold digitChar
  generalize n % 10 = k at h ⊢
  interval_cases k <;> rfl

theorem digitChar_isDigit (n : Nat) : (digitChar n).isDigit = true := by
  have h : n % 10 < 10 := Nat.mod_lt _ (by norm_num)
  unfold digitChar
  generalize n % 10 = k at h ⊢
  interval_cases k <;> rfl

theorem digitChar_ne_dot (n : Nat) : digitChar n ≠ '.' := by
  have h : n % 10 < 10 := Nat.mod_lt _ (by norm_num)
  unfold digitChar
  generalize n % 10 = k at h ⊢
  interval_cases k <;> decide

theorem isDigit_range (c : Char) (h : c.isDigit = true) :
    48 ≤ c.toNat ∧ c.toNat ≤ 57 := by
  unfold Char.isDigit at h
  rw [Bool.and_eq_true] at h
  obtain ⟨h1, h2⟩ := h
  have g1 : (48 : UInt32) ≤ c.val := of_decide_eq_true h1
  have g2 : c.val ≤ (57 : UInt32) := of_decide_eq_true h2
  exact ⟨UInt32.le_toNat_of_le (by norm_num) g1,
    UInt32.toNat_le_of_le (by norm_num) g2⟩

theorem digitChar_of_isDigit (c : Char) (h : c.isDigit = true) :
    digitChar (c.toNat - 48) = c := by
  obtain ⟨h1, h2⟩ := isDigit_range c h
  unfold digitChar
  have e : 48 + (c.toNat - 48) % 10 = c.toNat := by omega
  rw [e]
  exact Char.ofNat_toNat c

theorem splitDots_ne_nil (l : List Char) : splitDots l ≠ [] := by
  cases l with
  | nil => simp [splitDots]
  | cons c rest =>
    unfold splitDots
    by_cases hc : c = '.'
    · simp [hc]
    · rw [if_neg hc]
      cases splitDots rest <;> simp

theorem splitDots_nodot (l : List Char) (h : ∀ c ∈ l, c ≠ '.') :
    splitDots l = [l] := by
  induction l with
  | nil => rfl
  | cons c rest ih =>
    have hc : c ≠ '.' := h c (List.mem_cons_self _ _)
    have hr := ih (fun x hx => h x (List.mem_cons_of_mem _ hx))
    unfold splitDots
    rw [if_neg hc, hr]

theorem splitDots_append (l r : List Char) (h : ∀ c ∈ l, c ≠ '.') :
    splitDots (l ++ '.' :: r) = l :: splitDots r := by
  induction l with
  | nil =>
    show splitDots ('.' :: r) = [] :: splitDots r
    conv_lhs => rw [splitDots]
    rw [if_pos rfl]
  | cons c rest ih =>
    have hc : c ≠ '.' := h c (List.mem_cons_self _ _)
    have hr := ih (fun x hx => h x (List.mem_cons_of_mem _ hx))
    show splitDots (c :: (rest ++ '.' :: r)) = _
    conv_lhs => rw [splitDots]
    rw [if_neg hc, hr]

theorem joinDots_splitDots (l : List Char) : joinDots (splitDots l) = l := by
  induction l with
  | nil => rfl
  | cons c rest ih =>
    unfold splitDots
    by_cases hc : c = '.'
    · rw [if_pos hc]
      cases hg : splitDots rest with
      | nil => exact absurd hg (splitDots_ne_nil rest)
      | cons g gs =>
        rw [hg] at ih
        subst hc
        simpa [joinDots] using ih
    · rw [if_neg hc]
      cases hg : splitDots rest with
      | nil => exact absurd hg (splitDots_ne_nil rest)
      | cons g gs =>
        rw [hg] at ih
        cases gs with
        | nil =>
          simp only [joinDots] at ih ⊢
          rw [ih]
        | cons g2 gs2 =>
          simp only [joinDots] at ih ⊢
          rw [← ih]
          simp

theorem pad2_nodot (n : Nat) : ∀ c ∈ pad2 n, c ≠ '.' := by
  intro c hc
  simp only [pad2, List.mem_cons, List.not_mem_nil, or_false] at hc
  rcases hc with rfl | rfl <;> exact digitChar_ne_dot _

theorem pad4_nodot (n : Nat) : ∀ c ∈ pad4 n, c ≠ '.' := by
  intro c hc
  simp only [pad4, List.mem_cons, List.not_mem_nil, or_false] at hc
  rcases hc with rfl | rfl | rfl | rfl <;> exact digitChar_ne_dot _

theorem charsToNat_pad2 (n : Nat) (h : n < 100) : charsToNat (pad2 n) = n := by
  unfold pad2 charsToNat
  simp only [List.foldl]
  rw [digitChar_toNat, digitChar_toNat]
  omega

theorem charsToNat_pad4 (n : Nat) (h : n < 10000) :
    charsToNat (pad4 n) = n := by
  unfold pad4 charsToNat
  simp only [List.foldl]
  rw [digitChar_toNat, digitChar_toNat, digitChar_toNat, digitChar_toNat]
  omega

theorem pad2_charsToNat (c1 c2 : Char) (h1 : c1.isDigit = true)
    (h2 : c2.isDigit = true) : pad2 (charsToNat [c1, c2]) = [c1, c2] := by
  obtain ⟨a1, b1⟩ := isDigit_range c1 h1
  obtain ⟨a2, b2⟩ := isDigit_range c2 h2
  unfold charsToNat
  simp only [List.foldl]
  unfold pad2
  have e1 : ((0 * 10 + (c1.toNat - 48)) * 10 + (c2.toNat - 48)) / 10 =
      c1.toNat - 48 := by omega
  have e2 : digitChar ((0 * 10 + (c1.toNat - 48)) * 10 + (c2.toNat - 48)) =
      c2 := by
    unfold digitChar
    rw [show ((0 * 10 + (c1.toNat - 48)) * 10 + (c2.toNat - 48)) % 10 =
        (c2.toNat - 48) % 10 by omega]
    have hx := digitChar_of_isDigit c2 h2
    unfold digitChar at hx
    exact hx
  rw [e1, digitChar_of_isDigit c1 h1, e2]

theorem pad4_charsToNat (c1 c2 c3 c4 : Char) (h1 : c1.isDigit = true)
    (h2 : c2.isDigit = true) (h3 : c3.isDigit = true) (h4 : c4.isDigit = true) :
    pad4 (charsToNat [c1, c2, c3, c4]) = [c1, c2, c3, c4] := by
  obtain ⟨a1, b1⟩ := isDigit_range c1 h1
  obtain ⟨a2, b2⟩ := isDigit_range c2 h2
  obtain ⟨a3, b3⟩ := isDigit_range c3 h3
  obtain ⟨a4, b4⟩ := isDigit_range c4 h4
  unfold charsToNat
  simp only [List.foldl]
  unfold pad4
  generalize hv : (((0 * 10 + (c1.toNat - 48)) * 10 + (c2.toNat - 48)) * 10 +
      (c3.toNat - 48)) * 10 + (c4.toNat - 48) = v
  have e1 : v / 1000 = c1.toNat - 48 := by omega
  have e2 : digitChar (v / 100) = c2 := by
    unfold digitChar
    rw [show v / 100 % 10 = (c2.toNat - 48) % 10 by omega]
    have hx := digitChar_of_isDigit c2 h2
    unfold digitChar at hx
    exact hx
  have e3 : digitChar (v / 10) = c3 := by
    unfold digitChar
    rw [show v / 10 % 10 = (c3.toNat - 48) % 10 by omega]
    have hx := digitChar_of_isDigit c3 h3
    unfold digitChar at hx
    exact hx
  have e4 : digitChar v = c4 := by
    unfold digitChar
    rw [show v % 10 = (c4.toNat - 48) % 10 by omega]
    have hx := digitChar_of_isDigit c4 h4
    unfold digitChar at hx
    exact hx
  rw [e1, digitChar_of_isDigit c1 h1, e2, e3, e4]

theorem allDigits_pad2 (n : Nat) : allDigits (pad2 n) = true := by
  simp [allDigits, pad2, digitChar_isDigit]

theorem allDigits_pad4 (n : Nat) : allDigits (pad4 n) = true := by
  simp [allDigits, pad4, digitChar_isDigit]

theorem dayTok_pad2 (d : Nat) (h1 : 1 ≤ d) (h2 : d ≤ 31) :
    dayTok (pad2 d) = true := by
  unfold dayTok
  rw [allDigits_pad2, charsToNat_pad2 d (by omega)]
  simp [pad2, h1, h2]

theorem monthTok_pad2 (m : Nat) (h1 : 1 ≤ m) (h2 : m ≤ 12) :
    monthTok (pad2 m) = true := by
  unfold monthTok
  rw [allDigits_pad2, charsToNat_pad2 m (by omega)]
  simp [pad2, h1, h2]

theorem yearTok_pad4 (y : Nat) : yearTok (pad4 y) = true := by
  unfold yearTok
  rw [allDigits_pad4]
  simp [pad4]

theorem daysInMonth_le (y m : Nat) : daysInMonth y m ≤ 31 := by
  unfold daysInMonth
  split
  · split <;> norm_num
  · split <;> norm_num

theorem parse_format (dt : PyDate) (hv : dt.valid) :
    parseBirthday (formatDate dt) = some dt := by
  obtain ⟨y, m, d⟩ := dt
  unfold PyDate.valid dateValid at hv
  dsimp only at hv
  obtain ⟨h1, h2, h3, h4, h5, h6⟩ := hv
  have hd31 : d ≤ 31 := le_trans h6 (daysInMonth_le y m)
  unfold formatDate parseBirthday
  rw [show (String.mk (pad2 d ++ '.' :: pad2 m ++ '.' :: pad4 y)).toList =
      pad2 d ++ '.' :: (pad2 m ++ '.' :: pad4 y) from rfl]
  rw [splitDots_append _ _ (pad2_nodot d), splitDots_append _ _ (pad2_nodot m),
    splitDots_nodot _ (pad4_nodot y)]
  dsimp only
  rw [dayTok_pad2 d h5 hd31, monthTok_pad2 m h3 h4, yearTok_pad4 y]
  rw [charsToNat_pad4 y (by omega), charsToNat_pad2 m (by omega),
    charsToNat_pad2 d (by omega)]
  simp only [Bool.and_self, Bool.and_true, Bool.true_and, if_true]
  rw [if_pos ⟨h1, h2, h3, h4, h5, h6⟩]

theorem parseBirthday_valid (s : String) (dt : PyDate)
    (hp : parseBirthday s = some dt) : dt.valid := by
  unfold parseBirthday at hp
  split at hp
  · split at hp
    · split at hp
      · injection hp with h
        subst h
        assumption
      · cases hp
    · cases hp
  · cases hp

theorem format_parse (s : String) (dt : PyDate) (hp : parseBirthday s = some dt)
    (hlen : s.length = 10) : formatDate dt = s := by
  unfold parseBirthday at hp
  split at hp
  case _ ds ms ys heq =>
    split at hp
    case isTrue htok =>
      split at hp
      case isTrue hvalid =>
        injection hp with hdt
        subst hdt
        have hjoin := joinDots_splitDots s.toList
        rw [heq] at hjoin
        have hlist : ds ++ '.' :: (ms ++ '.' :: ys) = s.toList := by
          simpa [joinDots] using hjoin
        rw [Bool.and_eq_true, Bool.and_eq_true] at htok
        obtain ⟨⟨htd, htm⟩, hty⟩ := htok
        unfold yearTok at hty
        rw [Bool.and_eq_true] at hty
        obtain ⟨hydig, hylen⟩ := hty
        rw [beq_iff_eq] at hylen
        unfold dayTok at htd
        rw [Bool.and_eq_true, Bool.and_eq_true, Bool.and_eq_true] at htd
        obtain ⟨⟨⟨hddig, hdlen⟩, -⟩, -⟩ := htd
        unfold monthTok at htm
        rw [Bool.and_eq_true, Bool.and_eq_true, Bool.and_eq_true] at htm
        obtain ⟨⟨⟨hmdig, hmlen⟩, -⟩, -⟩ := htm
        have hlens : ds.length + ms.length + ys.length + 2 = 10 := by
          have hL := congrArg List.length hlist
          rw [show s.toList.length = s.length from rfl, hlen] at hL
          simp only [List.length_append, List.length_cons] at hL
          omega
        have hds2 : ds.length = 2 := by
          rw [Bool.or_eq_true, beq_iff_eq, beq_iff_eq] at hdlen hmlen
          omega
        have hms2 : ms.length = 2 := by
          rw [Bool.or_eq_true, beq_iff_eq, beq_iff_eq] at hdlen hmlen
          omega
        have hys4 : ys.length = 4 := hylen
        obtain ⟨c1, c2, rfl⟩ := List.length_eq_two.mp hds2
        obtain ⟨m1, m2, rfl⟩ := List.length_eq_two.mp hms2
        obtain ⟨e1, t1, rfl⟩ := List.exists_of_length_succ ys
          (show ys.length = 3 + 1 from hys4)
        have ht1 : t1.length = 3 := by simpa using hys4
        obtain ⟨e2, t2, rfl⟩ := List.exists_of_length_succ t1
          (show t1.length = 2 + 1 from ht1)
        have ht2 : t2.length = 2 := by simpa using ht1
        obtain ⟨e3, e4, rfl⟩ := List.length_eq_two.mp ht2
        simp only [allDigits, List.all_cons, List.all_nil, Bool.and_eq_true,
          Bool.and_true] at hddig hmdig hydig
        unfold formatDate
        dsimp only
        rw [pad2_charsToNat c1 c2 hddig.1 hddig.2,
          pad2_charsToNat m1 m2 hmdig.1 hmdig.2,
          pad4_charsToNat e1 e2 e3 e4 hydig.1 hydig.2.1 hydig.2.2.1 hydig.2.2.2]
        apply congrArg String.mk
        have hlist2 : [c1, c2] ++ '.' :: ([m1, m2] ++ ['.', e1, e2, e3, e4]) =
            s.data := hlist
        rw [← hlist2]
        simp
      case isFalse => cases hp
    case isFalse => cases hp
  case _ => cases hp

/-- C9 counterexample: strptime with `"%d.%m.%Y"` is lenient about
zero-padding — `"5.1.1990"` (one-digit day and month) is accepted by the
`Birthday` constructor, although it does not match the claimed two-digit
`DD.MM.YYYY` pattern, and rendering the parsed value back gives
`"05.01.1990"`, not the input. -/
theorem birthday_unpadded_counterexample :
    parseBirthday "5.1.1990" = some ⟨1990, 1, 5⟩ ∧
    formatDate ⟨1990, 1, 5⟩ = "05.01.1990" ∧
    ("05.01.1990" : String) ≠ "5.1.1990" := by
  refine ⟨by decide, by decide, by decide⟩

/-- C9 (amended): the `Birthday` parser succeeds exactly on
`day.month.year` strings with a one- or two-digit day and month and a
four-digit year denoting a real calendar date — zero-padding of day and
month is optional, so acceptance is strictly wider than the two-digit
`DD.MM.YYYY` pattern; every parsed value is a real date; `31.02.2024` is
rejected and `29.02.2024` accepted; and rendering round-trips exactly on
the canonically padded inputs (length 10, year ≥ 1000). -/
theorem birthday_parse_spec :
    (∀ (s : String) (dt : PyDate), parseBirthday s = some dt → dt.valid) ∧
    (∀ dt : PyDate, dt.valid → 1000 ≤ dt.year →
       parseBirthday (formatDate dt) = some dt) ∧
    (∀ (s : String) (dt : PyDate), parseBirthday s = some dt →
       s.length = 10 → 1000 ≤ dt.year → formatDate dt = s) ∧
    parseBirthday "31.02.2024" = none ∧
    parseBirthday "29.02.2024" = some ⟨2024, 2, 29⟩ := by
  refine ⟨parseBirthday_valid, ?_, ?_, by decide, by decide⟩
  · intro dt hv _
    exact parse_format dt hv
  · intro s dt hp hlen _
    exact format_parse s dt hp hlen

theorem birthday_parse_spec_witness :
    PyDate.valid ⟨2024, 2, 29⟩ ∧
    parseBirthday (formatDate ⟨2024, 2, 29⟩) = some ⟨2024, 2, 29⟩ ∧
    formatDate ⟨2024, 2, 29⟩ = "29.02.2024" :=
  ⟨birthday_parse_spec.1 "29.02.2024" ⟨2024, 2, 29⟩ (by decide),
   birthday_parse_spec.2.1 ⟨2024, 2, 29⟩ (by decide) (by norm_num),
   birthday_parse_spec.2.2.1 "29.02.2024" ⟨2024, 2, 29⟩ (by decide) (by decide)
     (by norm_num)⟩

end AssistantBot
